import Mathlib

/-!
Verification of the festerize CSV uploader (UCLALibrary/go-festerize, main.go)
against its natural-language specification.

The development shallowly embeds the per-file upload-and-reconcile pipeline of
`main.go`: path classification, the multipart upload (`uploadCSV`), response
interpretation, output writing, and the strict/lenient batch policy.  All
filesystem, environment and network effects are made explicit as oracle values
(`UploadEnv`, `PathWorld`, `MainEnv`) consumed in exactly the order the Go code
consults them, and the run is a pure function producing the ordered outcome
list, the output-directory contents, the observable event trace and the
process exit code.
-/

namespace Festerize

/-- Exit codes used by the program (main.go, `FesterizeError` constants). -/
inductive FesterizeError
  | noFilesSpecified
  | nonExistentFileSpecified
  | nonCsvFileSpecified
  | festerUnavailable
  | festerErrorResponse
  | fileIoError
  | invalidOutputSpecified
deriving DecidableEq

/-- Numeric value of each exit-code constant (main.go lines 25-33). -/
def FesterizeError.code : FesterizeError → Nat
  | .noFilesSpecified => 1
  | .nonExistentFileSpecified => 2
  | .nonCsvFileSpecified => 3
  | .festerUnavailable => 4
  | .festerErrorResponse => 5
  | .fileIoError => 6
  | .invalidOutputSpecified => 7

/-- Rune-level fold equality of Go `strings.EqualFold`.  Two runes are
equal under simple case folding.  The model is exact whenever either rune is
ASCII (the program only ever compares against the ASCII literal ".csv"):
besides the ASCII upper/lower pairs, the only Unicode simple-fold orbits that
reach ASCII are the Kelvin sign U+212A (folding with K/k) and the long s
U+017F (folding with S/s), both covered below. -/
def goCharFoldEq (a b : Char) : Bool :=
  decide (a = b
    ∨ (65 ≤ a.toNat ∧ a.toNat ≤ 90 ∧ b.toNat = a.toNat + 32)
    ∨ (65 ≤ b.toNat ∧ b.toNat ≤ 90 ∧ a.toNat = b.toNat + 32)
    ∨ (a.toNat = 0x212A ∧ (b.toNat = 75 ∨ b.toNat = 107))
    ∨ (b.toNat = 0x212A ∧ (a.toNat = 75 ∨ a.toNat = 107))
    ∨ (a.toNat = 0x17F ∧ (b.toNat = 83 ∨ b.toNat = 115))
    ∨ (b.toNat = 0x17F ∧ (a.toNat = 83 ∨ a.toNat = 115)))

/-- Rune-by-rune loop of Go `strings.EqualFold`: both strings must have the
same rune count and corresponding runes must fold-equal. -/
def charsFoldEq : List Char → List Char → Bool
  | [], [] => true
  | a :: as_, b :: bs_ => goCharFoldEq a b && charsFoldEq as_ bs_
  | _, _ => false

/-- Go `strings.EqualFold`. -/
def goEqualFold (a b : String) : Bool :=
  charsFoldEq a.data b.data

/-- Helper for `goExt`: walks the path from its last rune towards the front
(the argument is the reversed rune list), accumulating the runes seen, and
returns the suffix from the final dot; stops empty at a path separator or at
the front, exactly as Go `path/filepath.Ext` does. -/
def goExtAux : List Char → List Char → String
  | [], _ => ""
  | c :: rest, acc =>
    if c = '/' then ""
    else if c = '.' then ⟨'.' :: acc⟩
    else goExtAux rest (c :: acc)

/-- Go `path/filepath.Ext` (Unix separator): the suffix beginning at the final
dot in the final element of the path, empty if there is no dot. -/
def goExt (path : String) : String :=
  goExtAux path.data.reverse []

/-- Helper for `goBase`: on the reversed rune list, take runes up to the first
separator (that is, the last path element). -/
def takeUntilSep : List Char → List Char
  | [] => []
  | c :: rest => if c = '/' then [] else c :: takeUntilSep rest

/-- Go `path/filepath.Base` (Unix separator): last element of the path after
dropping trailing separators; "." for the empty path, "/" for all-separator
paths. -/
def goBase (path : String) : String :=
  if path = "" then "."
  else
    let r := path.data.reverse.dropWhile (fun c => c = '/')
    let base := (takeUntilSep r).reverse
    if base = [] then "/" else ⟨base⟩

/-- The CSV-extension test applied to each display filename
(main.go line 374: `strings.EqualFold(filepath.Ext(filename), ".csv")`). -/
def hasCsvExtension (filename : String) : Bool :=
  goEqualFold (goExt filename) ".csv"

/-- `ValidateVersion` (main.go lines 162-169), as the Boolean "no error". -/
def validateVersion (v : String) : Bool :=
  v = "2" || v = "3"

/-- `ValidateLoglevel` (main.go lines 152-159), as the Boolean "no error". -/
def validateLoglevel (l : String) : Bool :=
  l = "INFO" || l = "DEBUG" || l = "ERROR"

/-- One part of the multipart request body. -/
inductive Part
  | filePart (fieldName fileName content : String)
  | formField (name value : String)
deriving DecidableEq

/-- The state of Go `mime/multipart.Writer` backed by a `bytes.Buffer`:
the ordered list of parts written so far (writes to a memory buffer cannot
fail). -/
structure MultipartWriter where
  parts : List Part
deriving DecidableEq

/-- `writer.CreateFormFile(fieldname, filename)` followed by `io.Copy` of the
source file content into the created part. -/
def MultipartWriter.createFormFile (w : MultipartWriter)
    (fieldname filename content : String) : MultipartWriter :=
  ⟨w.parts ++ [Part.filePart fieldname filename content]⟩

/-- `writer.WriteField(name, value)`. -/
def MultipartWriter.writeField (w : MultipartWriter)
    (name value : String) : MultipartWriter :=
  ⟨w.parts ++ [Part.formField name value]⟩

/-- The multipart body built by `uploadCSV` (main.go lines 229-257):
the file part, the "iiif-version" field, the optional "iiif-host" field, the
optional "metadata-update" field, in that order. -/
def buildUploadBody (filePath fileContent iiifAPIVersion iiifHost : String)
    (metadataUpdate : Bool) : MultipartWriter :=
  let writer : MultipartWriter := ⟨[]⟩
  let writer := writer.createFormFile "file" filePath fileContent
  let writer := writer.writeField "iiif-version" ("v" ++ iiifAPIVersion)
  let writer := if iiifHost ≠ "" then writer.writeField "iiif-host" iiifHost else writer
  let writer := if metadataUpdate then writer.writeField "metadata-update" "true" else writer
  writer

/-- An HTTP response as this client observes it: status code and body bytes. -/
structure Response where
  statusCode : Nat
  body : String
deriving DecidableEq

/-- The distinct failure returns of `uploadCSV`, in source order. -/
inductive UploadError
  | openFailed
  | copyFailed
  | newRequestFailed
  | missingUsername
  | missingPassword
  | transportFailed
  | readBodyFailed
deriving DecidableEq

/-- Result of one `uploadCSV` call: the Go `(response, responseBody, err)`
triple collapsed to its two possible shapes. -/
inductive UploadOut
  | failure (e : UploadError)
  | success (resp : Response) (body : String)
deriving DecidableEq

/-- Oracle for the effects one `uploadCSV` call performs, in the order the
source consults them: `os.Open`, `io.Copy`, `http.NewRequest`, the two
credential lookups (`os.Getenv` after `godotenv.Load`), `client.Do`
(`transport = none` models a transport error, `some resp` a delivered
response), and `io.ReadAll` of the response body. -/
structure UploadEnv where
  openOk : Bool
  fileContent : String
  copyOk : Bool
  newRequestOk : Bool
  envUsername : String
  envPassword : String
  transport : Option Response
  readBodyOk : Bool
deriving DecidableEq

/-- What one `uploadCSV` call returns and observably does: its result, whether
`client.Do` was reached (a network call was made), and the multipart parts it
built for the request body. -/
structure UploadResult where
  result : UploadOut
  networkCalled : Bool
  parts : List Part
deriving DecidableEq

/-- `uploadCSV` (main.go lines 219-309).  Effects are read from `env` in
source order: open the file, copy it into the form, add the text fields,
build the POST request, load and check the two credentials (returning before
any network call if either is empty), perform the single round trip, and read
the response body. -/
def uploadCSV (env : UploadEnv)
    (filePath postURL iiifAPIVersion iiifHost : String)
    (metadataUpdate : Bool) : UploadResult :=
  if env.openOk = false then ⟨.failure .openFailed, false, []⟩
  else if env.copyOk = false then ⟨.failure .copyFailed, false, []⟩
  else
    let writer := buildUploadBody filePath env.fileContent iiifAPIVersion iiifHost metadataUpdate
    if env.newRequestOk = false then ⟨.failure .newRequestFailed, false, writer.parts⟩
    else if env.envUsername = "" then ⟨.failure .missingUsername, false, writer.parts⟩
    else if env.envPassword = "" then ⟨.failure .missingPassword, false, writer.parts⟩
    else
      match env.transport with
      | none => ⟨.failure .transportFailed, true, writer.parts⟩
      | some resp =>
        if env.readBodyOk = false then ⟨.failure .readBodyFailed, true, writer.parts⟩
        else ⟨.success resp resp.body, true, writer.parts⟩

/-- The multipart parts exactly as section 4.2 of the specification lists
them, written from the specification words: (1) a file part named "file"
whose field value is the absolute path string and whose content is the source
file bytes; (2) a text field "iiif-version" with value "v" ++ apiVersion;
(3) if imageHost is non-empty, a text field "iiif-host"; (4) if
metadataUpdateOnly, a text field "metadata-update" = "true". -/
def specMultipartParts (absolutePath fileContent apiVersion imageHost : String)
    (metadataUpdateOnly : Bool) : List Part :=
  [Part.filePart "file" absolutePath fileContent,
   Part.formField "iiif-version" ("v" ++ apiVersion)]
  ++ (if imageHost ≠ "" then [Part.formField "iiif-host" imageHost] else [])
  ++ (if metadataUpdateOnly then [Part.formField "metadata-update" "true"] else [])

/-- The already-validated configuration the run consumes: the flag globals of
main.go (lines 96-104) after cobra parsing. -/
structure Config where
  server : String
  out : String
  iiifApiVersion : String
  iiifhost : String
  loglevel : String
  metadata : Bool
  thumbnail : Bool
  strictMode : Bool
deriving DecidableEq

/-- Target URL selection (main.go lines 343-344 and 375-380): the thumbnails
endpoint in thumbnail mode, the collections endpoint otherwise. -/
def uploadUrlOf (cfg : Config) : String :=
  if cfg.thumbnail then cfg.server ++ "/thumbnails" else cfg.server ++ "/collections"

/-- Oracle for the per-path effects of one loop iteration (main.go lines
351-458), in source order: `filepath.Abs` (`none` models its error), the
`os.Stat`/`os.IsNotExist` existence check, the whole `uploadCSV` call, and
the `os.Create` and `file.Write` calls on the output file. -/
structure PathWorld where
  absResult : Option String
  statExists : Bool
  upload : UploadEnv
  createOk : Bool
  writeOk : Bool
deriving DecidableEq

/-- The per-path outcome the loop body produces, one constructor per
control-flow exit of the iteration. -/
inductive Outcome
  | absError
  | missingFile
  | notCsv
  | uploadError (e : UploadError)
  | serverError (statusCode : Nat)
  | createFailed
  | writeFailed
  | uploaded
deriving DecidableEq

/-- Externally observable events of one iteration, in order of occurrence:
the network round trip, the creation (truncation) of the output file, and the
write of the response body into it. -/
inductive Event
  | networkCall (parts : List Part)
  | fileCreated (name : String)
  | fileWrote (name : String) (content : String)
deriving DecidableEq

/-- Contents of the output directory: an association list from filename to
file content. -/
def setFile : List (String × String) → String → String → List (String × String)
  | [], n, c => [(n, c)]
  | (m, d) :: rest, n, c =>
    if m = n then (n, c) :: rest else (m, d) :: setFile rest n c

/-- Look up a file of the output directory by name. -/
def getFile : List (String × String) → String → Option String
  | [], _ => none
  | (m, d) :: rest, n => if m = n then some d else getFile rest n

/-- Result of one loop iteration: the outcome, the new output-directory
contents, the event trace, and the exit code when strict mode terminates the
process at this iteration. -/
structure StepResult where
  outcome : Outcome
  fs : List (String × String)
  events : List Event
  exitCode : Option Nat
deriving DecidableEq

/-- One iteration of the per-file loop (main.go lines 351-458).  Branches in
source order: absolute-path resolution, the existence check, the
case-insensitive CSV-extension check, the upload, the 201 success test
(`err == nil && response.StatusCode == 201`), output-file creation, and the
body write.  The goquery parse of the error body (lines 432-437) cannot fail
on a string reader, so its `continue` branch is unreachable and the else
branch always reaches the strict-mode exit with `FesterErrorResponse`. -/
def processPath (cfg : Config) (w : PathWorld) (pathString : String)
    (fs : List (String × String)) : StepResult :=
  match w.absResult with
  | none =>
    ⟨.absError, fs, [], if cfg.strictMode then some FesterizeError.fileIoError.code else none⟩
  | some absPath =>
    let filename := goBase absPath
    if w.statExists = false then
      ⟨.missingFile, fs, [],
        if cfg.strictMode then some FesterizeError.nonExistentFileSpecified.code else none⟩
    else if hasCsvExtension filename then
      let r := uploadCSV w.upload absPath (uploadUrlOf cfg)
        cfg.iiifApiVersion cfg.iiifhost cfg.metadata
      let netEvents := if r.networkCalled then [Event.networkCall r.parts] else []
      match r.result with
      | .success resp body =>
        if resp.statusCode = 201 then
          if w.createOk = false then
            ⟨.createFailed, fs, netEvents,
              if cfg.strictMode then some FesterizeError.fileIoError.code else none⟩
          else
            let fs1 := setFile fs filename ""
            let evs1 := netEvents ++ [Event.fileCreated filename]
            if w.writeOk = false then
              ⟨.writeFailed, fs1, evs1,
                if cfg.strictMode then some FesterizeError.fileIoError.code else none⟩
            else
              ⟨.uploaded, setFile fs1 filename body, evs1 ++ [Event.fileWrote filename body],
                none⟩
        else
          ⟨.serverError resp.statusCode, fs, netEvents,
            if cfg.strictMode then some FesterizeError.festerErrorResponse.code else none⟩
      | .failure e =>
        ⟨.uploadError e, fs, netEvents,
          if cfg.strictMode then some FesterizeError.festerErrorResponse.code else none⟩
    else
      ⟨.notCsv, fs, [],
        if cfg.strictMode then some FesterizeError.nonCsvFileSpecified.code else none⟩

/-- Result of the whole per-file loop: the ordered outcomes of the processed
paths, the final output-directory contents, the concatenated event trace, and
the exit code when strict mode terminated the loop early (`none` means the
loop ran to completion and the process exits 0). -/
structure RunResult where
  outcomes : List Outcome
  fs : List (String × String)
  events : List Event
  exitCode : Option Nat
deriving DecidableEq

/-- The per-file loop over the input paths, each paired with its effect
oracle.  A strict-mode exit at one iteration stops the recursion: no later
path is processed. -/
def runBatch (cfg : Config) : List (String × PathWorld) → List (String × String) → RunResult
  | [], fs => ⟨[], fs, [], none⟩
  | (p, w) :: rest, fs =>
    let s := processPath cfg w p fs
    match s.exitCode with
    | some c => ⟨[s.outcome], s.fs, s.events, some c⟩
    | none =>
      let r := runBatch cfg rest s.fs
      ⟨s.outcome :: r.outcomes, r.fs, s.events ++ r.events, r.exitCode⟩

/-- The `Run` closure of `rootCmd` (main.go lines 114-148): with no
positional arguments it shows help and exits 0; an invalid API version or log
level exits 1; the second no-arguments check (line 143, exit code
`NoFilesSpecified`) is kept from the source although the first check makes it
unreachable.  Returns the exit code requested, if any, and the resulting
`src` list. -/
def rootCmdRun (cfg : Config) (args srcInit : List String) : Option Nat × List String :=
  if args.length = 0 then (some 0, srcInit)
  else if validateVersion cfg.iiifApiVersion = false then (some 1, srcInit)
  else if validateLoglevel cfg.loglevel = false then (some 1, srcInit)
  else if args.length = 0 then (some FesterizeError.noFilesSpecified.code, srcInit)
  else (none, srcInit ++ args)

/-- Oracle for the effects of `main` outside the loop: whether
`rootCmd.Execute` itself succeeds (cobra flag parsing), whether
`CreateOutputDir` succeeds (directory creation or interactive confirmation),
the per-path oracles aligned with the argument list, and the prior contents
of the output directory. -/
structure MainEnv where
  execOk : Bool
  outputDirOk : Bool
  worlds : List PathWorld
  initialFs : List (String × String)
deriving DecidableEq

/-- Observable result of a whole process run. -/
structure MainResult where
  exitCode : Nat
  outcomes : List Outcome
  fs : List (String × String)
  events : List Event
deriving DecidableEq

/-- `main` (main.go lines 325-459): execute the command line (exit 1 on a
cobra error, or the code requested by the `Run` closure), create or confirm
the output directory (exit `InvalidOutputSpecified` on failure), then run the
per-file loop; the process exit code is the strict-mode code if the loop
exited early, else 0. -/
def festerizeMain (cfg : Config) (env : MainEnv) (args : List String) : MainResult :=
  if env.execOk = false then ⟨1, [], env.initialFs, []⟩
  else
    match rootCmdRun cfg args [] with
    | (some c, _) => ⟨c, [], env.initialFs, []⟩
    | (none, src) =>
      if env.outputDirOk = false then
        ⟨FesterizeError.invalidOutputSpecified.code, [], env.initialFs, []⟩
      else
        let r := runBatch cfg (src.zip env.worlds) env.initialFs
        ⟨r.exitCode.getD 0, r.outcomes, r.fs, r.events⟩

/-! Concrete fixtures used by the witness and counterexample theorems. -/

/-- A service response body for a successful collections upload. -/
def okBody : String :=
  "Item ARK,Object Type,IIIF Manifest URL\nark:/123,Work,http://iiif.example/m1"

/-- A service response body for a successful thumbnails upload. -/
def thumbBody : String :=
  "Item ARK,Object Type,Thumbnail URL\nark:/123,Work,http://iiif.example/t1"

/-- Upload effects of a fully successful collections upload (status 201). -/
def okUploadEnv : UploadEnv :=
  ⟨true, "Item ARK,Object Type\nark:/123,Work", true, true,
    "fester-user", "fester-pass", some ⟨201, okBody⟩, true⟩

/-- Upload effects of a successful thumbnails upload: the service replies 200,
the success status the repository test suite records for the thumbnails
endpoint. -/
def thumb200UploadEnv : UploadEnv :=
  ⟨true, "Item ARK,Object Type\nark:/123,Work", true, true,
    "fester-user", "fester-pass", some ⟨200, thumbBody⟩, true⟩

/-- Upload effects with both credential environment values empty. -/
def noCredsUploadEnv : UploadEnv :=
  ⟨true, "Item ARK,Object Type\nark:/123,Work", true, true, "", "",
    some ⟨201, okBody⟩, true⟩

/-- Upload effects where the single round trip fails at the transport layer. -/
def transportFailUploadEnv : UploadEnv :=
  ⟨true, "Item ARK,Object Type\nark:/123,Work", true, true,
    "fester-user", "fester-pass", none, true⟩

/-- Default-mode lenient configuration. -/
def lenientCfg : Config :=
  ⟨"https://ingest.iiif.library.ucla.edu", "output", "2", "", "INFO", false, false, false⟩

/-- Default-mode strict configuration. -/
def strictCfg : Config :=
  ⟨"https://ingest.iiif.library.ucla.edu", "output", "2", "", "INFO", false, false, true⟩

/-- Thumbnail-mode lenient configuration. -/
def thumbnailCfg : Config :=
  ⟨"https://ingest.iiif.library.ucla.edu", "output", "3", "", "INFO", false, true, false⟩

/-- Thumbnail-mode strict configuration. -/
def strictThumbnailCfg : Config :=
  ⟨"https://ingest.iiif.library.ucla.edu", "output", "3", "", "INFO", false, true, true⟩

/-- A path whose file exists, uploads fine, and is written fine. -/
def worldOk : PathWorld := ⟨some "/data/a.csv", true, okUploadEnv, true, true⟩

/-- A path whose file does not exist. -/
def worldMissing : PathWorld := ⟨some "/data/missing.csv", false, okUploadEnv, true, true⟩

/-- A path whose upload would run without credentials. -/
def worldNoCreds : PathWorld := ⟨some "/data/a.csv", true, noCredsUploadEnv, true, true⟩

/-- A path whose upload fails at the transport layer. -/
def worldTransportFail : PathWorld :=
  ⟨some "/data/a.csv", true, transportFailUploadEnv, true, true⟩

/-- A path whose upload succeeds but whose output-file write fails. -/
def worldWriteFail : PathWorld := ⟨some "/data/a.csv", true, okUploadEnv, true, false⟩

/-- A thumbnail-mode path whose upload is answered with status 200. -/
def thumb200World : PathWorld := ⟨some "/data/works.csv", true, thumb200UploadEnv, true, true⟩

/-- A startup environment with no input worlds. -/
def emptyMainEnv : MainEnv := ⟨true, true, [], []⟩

/-- A startup environment for a two-file lenient run. -/
def lenientMainEnv : MainEnv := ⟨true, true, [worldMissing, worldOk], []⟩

/-! Helper lemmas about the embedded definitions. -/

/-- Characters with equal code points are equal. -/
lemma charEqOfToNatEq {a b : Char} (h : a.toNat = b.toNat) : a = b :=
  Char.eq_of_val_eq (UInt32.ext h)

/-- Only the dot itself fold-equals the dot. -/
lemma goCharFoldEq_dot (d : Char) : goCharFoldEq d '.' = true ↔ d = '.' := by
  have hd : ('.' : Char).toNat = 46 := rfl
  unfold goCharFoldEq
  simp only [decide_eq_true_eq]
  constructor
  · intro h
    rcases h with h | ⟨h1, h2, h3⟩ | ⟨h1, h2, h3⟩ | ⟨h1, h2⟩ | ⟨h1, h2⟩ | ⟨h1, h2⟩ | ⟨h1, h2⟩
    · exact h
    · rw [hd] at h3; omega
    · rw [hd] at h1; omega
    · rw [hd] at h2; rcases h2 with h2 | h2 <;> omega
    · rw [hd] at h1; omega
    · rw [hd] at h2; rcases h2 with h2 | h2 <;> omega
    · rw [hd] at h1; omega
  · rintro rfl
    exact Or.inl rfl

/-- Exactly the two case variants of the letter c fold-equal it. -/
lemma goCharFoldEq_c (d : Char) : goCharFoldEq d 'c' = true ↔ (d = 'c' ∨ d = 'C') := by
  have h99 : ('c' : Char).toNat = 99 := rfl
  have h67 : ('C' : Char).toNat = 67 := rfl
  unfold goCharFoldEq
  simp only [decide_eq_true_eq]
  constructor
  · intro h
    rcases h with h | ⟨h1, h2, h3⟩ | ⟨h1, h2, h3⟩ | ⟨h1, h2⟩ | ⟨h1, h2⟩ | ⟨h1, h2⟩ | ⟨h1, h2⟩
    · exact Or.inl h
    · rw [h99] at h3
      exact Or.inr (charEqOfToNatEq (by rw [h67]; omega))
    · rw [h99] at h1; omega
    · rw [h99] at h2; rcases h2 with h2 | h2 <;> omega
    · rw [h99] at h1; omega
    · rw [h99] at h2; rcases h2 with h2 | h2 <;> omega
    · rw [h99] at h1; omega
  · rintro (rfl | rfl)
    · exact Or.inl rfl
    · refine Or.inr (Or.inl ⟨?_, ?_, ?_⟩) <;> rw [h67] <;> omega

/-- Within the ASCII range, exactly the two case variants of the letter s
fold-equal it (outside ASCII the long s U+017F also does). -/
lemma goCharFoldEq_s (d : Char) (hd : d.toNat ≤ 127) :
    goCharFoldEq d 's' = true ↔ (d = 's' ∨ d = 'S') := by
  have h115 : ('s' : Char).toNat = 115 := rfl
  have h83 : ('S' : Char).toNat = 83 := rfl
  unfold goCharFoldEq
  simp only [decide_eq_true_eq]
  constructor
  · intro h
    rcases h with h | ⟨h1, h2, h3⟩ | ⟨h1, h2, h3⟩ | ⟨h1, h2⟩ | ⟨h1, h2⟩ | ⟨h1, h2⟩ | ⟨h1, h2⟩
    · exact Or.inl h
    · rw [h115] at h3
      exact Or.inr (charEqOfToNatEq (by rw [h83]; omega))
    · rw [h115] at h1; omega
    · rw [h115] at h2; rcases h2 with h2 | h2 <;> omega
    · rw [h115] at h1; omega
    · rw [h115] at h2; rcases h2 with h2 | h2 <;> omega
    · omega
  · rintro (rfl | rfl)
    · exact Or.inl rfl
    · refine Or.inr (Or.inl ⟨?_, ?_, ?_⟩) <;> rw [h83] <;> omega

/-- Exactly the two case variants of the letter v fold-equal it. -/
lemma goCharFoldEq_v (d : Char) : goCharFoldEq d 'v' = true ↔ (d = 'v' ∨ d = 'V') := by
  have h118 : ('v' : Char).toNat = 118 := rfl
  have h86 : ('V' : Char).toNat = 86 := rfl
  unfold goCharFoldEq
  simp only [decide_eq_true_eq]
  constructor
  · intro h
    rcases h with h | ⟨h1, h2, h3⟩ | ⟨h1, h2, h3⟩ | ⟨h1, h2⟩ | ⟨h1, h2⟩ | ⟨h1, h2⟩ | ⟨h1, h2⟩
    · exact Or.inl h
    · rw [h118] at h3
      exact Or.inr (charEqOfToNatEq (by rw [h86]; omega))
    · rw [h118] at h1; omega
    · rw [h118] at h2; rcases h2 with h2 | h2 <;> omega
    · rw [h118] at h1; omega
    · rw [h118] at h2; rcases h2 with h2 | h2 <;> omega
    · rw [h118] at h1; omega
  · rintro (rfl | rfl)
    · exact Or.inl rfl
    · refine Or.inr (Or.inl ⟨?_, ?_, ?_⟩) <;> rw [h86] <;> omega

/-- Structure of `goExtAux`: its result is either empty, or the input splits
at a dot preceded (towards the end of the path) only by runes that are
neither separators nor dots, and the result is that dot suffix. -/
lemma goExtAux_spec (rev : List Char) :
    ∀ acc : List Char, goExtAux rev acc = "" ∨
      ∃ taken rest, rev = taken ++ '.' :: rest ∧ (∀ c ∈ taken, c ≠ '/' ∧ c ≠ '.') ∧
        goExtAux rev acc = ⟨'.' :: (taken.reverse ++ acc)⟩ := by
  induction rev with
  | nil => intro acc; left; rfl
  | cons c rest ih =>
    intro acc
    by_cases h1 : c = '/'
    · left; simp [goExtAux, h1]
    · by_cases h2 : c = '.'
      · right
        refine ⟨[], rest, by simp [h2], by simp, by simp [goExtAux, h1, h2]⟩
      · rcases ih (c :: acc) with h | ⟨taken, rest2, heq, hnone, hval⟩
        · left; simp [goExtAux, h1, h2, h]
        · right
          refine ⟨c :: taken, rest2, by simp [heq], ?_, ?_⟩
          · intro x hx
            rcases List.mem_cons.mp hx with rfl | hx
            · exact ⟨h1, h2⟩
            · exact hnone x hx
          · simp only [goExtAux, if_neg h1, if_neg h2]
            rw [hval]
            simp

/-- Any string ending in a dot followed by case variants of c, s, v passes
the CSV-extension check. -/
lemma hasCsv_of_shape (stemL : List Char) (c2 c3 c4 : Char)
    (h2 : c2 = 'c' ∨ c2 = 'C') (h3 : c3 = 's' ∨ c3 = 'S') (h4 : c4 = 'v' ∨ c4 = 'V') :
    hasCsvExtension ⟨stemL ++ ['.', c2, c3, c4]⟩ = true := by
  rcases h2 with rfl | rfl <;> rcases h3 with rfl | rfl <;> rcases h4 with rfl | rfl <;>
    simp [hasCsvExtension, goExt, goEqualFold, goExtAux, charsFoldEq, goCharFoldEq]

/-- Any ASCII string passing the CSV-extension check ends in a dot followed
by case variants of c, s, v. -/
lemma shape_of_hasCsv (name : String) (hascii : ∀ c ∈ name.data, c.toNat ≤ 127)
    (h : hasCsvExtension name = true) :
    ∃ stemL c2 c3 c4, name.data = stemL ++ ['.', c2, c3, c4] ∧
      (c2 = 'c' ∨ c2 = 'C') ∧ (c3 = 's' ∨ c3 = 'S') ∧ (c4 = 'v' ∨ c4 = 'V') := by
  unfold hasCsvExtension goExt at h
  rcases goExtAux_spec name.data.reverse [] with he | ⟨taken, rest, heq, hnodot, hval⟩
  · rw [he] at h
    simp [goEqualFold, charsFoldEq] at h
  · rw [hval] at h
    unfold goEqualFold at h
    simp only [List.append_nil] at hval h
    rcases htr : taken.reverse with _ | ⟨d2, l2⟩
    · rw [htr] at h
      simp [charsFoldEq] at h
    · rcases l2 with _ | ⟨d3, l3⟩
      · rw [htr] at h
        simp [charsFoldEq] at h
      · rcases l3 with _ | ⟨d4, l4⟩
        · rw [htr] at h
          simp [charsFoldEq] at h
        · rcases l4 with _ | ⟨d5, l5⟩
          · rw [htr] at h
            have hmem : d3 ∈ name.data := by
              have hd : name.data = rest.reverse ++ '.' :: taken.reverse := by
                have := congrArg List.reverse heq
                simpa using this
              rw [hd, htr]
              simp
            simp only [charsFoldEq, Bool.and_eq_true, String.data] at h
            obtain ⟨hq1, hq2, hq3, hq4, _⟩ := h
            refine ⟨rest.reverse, d2, d3, d4, ?_, ?_, ?_, ?_⟩
            · have := congrArg List.reverse heq
              simp at this
              rw [this, htr]
            · exact (goCharFoldEq_c d2).mp hq2
            · exact (goCharFoldEq_s d3 (hascii d3 hmem)).mp hq3
            · exact (goCharFoldEq_v d4).mp hq4
          · rw [htr] at h
            simp [charsFoldEq] at h

/-- The outcome, events and requested exit code of one iteration do not
depend on the current output-directory contents. -/
lemma processPath_fs_irrelevant (cfg : Config) (w : PathWorld) (p : String)
    (fs fs2 : List (String × String)) :
    (processPath cfg w p fs).outcome = (processPath cfg w p fs2).outcome ∧
    (processPath cfg w p fs).events = (processPath cfg w p fs2).events ∧
    (processPath cfg w p fs).exitCode = (processPath cfg w p fs2).exitCode := by
  unfold processPath
  rcases w.absResult with _ | absPath
  · exact ⟨rfl, rfl, rfl⟩
  · simp only
    repeat' split
    all_goals simp_all

/-- In lenient mode no iteration requests a process exit. -/
lemma processPath_exit_of_lenient (cfg : Config) (w : PathWorld) (p : String)
    (fs : List (String × String)) (h : cfg.strictMode = false) :
    (processPath cfg w p fs).exitCode = none := by
  unfold processPath
  rcases w.absResult with _ | absPath
  · simp [h]
  · simp only
    repeat' split
    all_goals simp_all

/-- In strict mode every iteration either completes with a full success or
requests the exit code matching its failure kind. -/
lemma processPath_strict_classified (cfg : Config) (w : PathWorld) (p : String)
    (fs : List (String × String)) (hs : cfg.strictMode = true) :
    ((processPath cfg w p fs).exitCode = none ∧ (processPath cfg w p fs).outcome = .uploaded) ∨
    ((processPath cfg w p fs).exitCode = some 2 ∧
      (processPath cfg w p fs).outcome = .missingFile) ∨
    ((processPath cfg w p fs).exitCode = some 3 ∧ (processPath cfg w p fs).outcome = .notCsv) ∨
    ((processPath cfg w p fs).exitCode = some 5 ∧
      ((∃ e, (processPath cfg w p fs).outcome = .uploadError e) ∨
       (∃ s, (processPath cfg w p fs).outcome = .serverError s))) ∨
    ((processPath cfg w p fs).exitCode = some 6 ∧
      ((processPath cfg w p fs).outcome = .absError ∨
       (processPath cfg w p fs).outcome = .createFailed ∨
       (processPath cfg w p fs).outcome = .writeFailed)) := by
  unfold processPath
  rcases w.absResult with _ | absPath
  · simp [hs, FesterizeError.code]
  · simp only
    repeat' split
    all_goals simp_all [FesterizeError.code]

/-- The only exit codes one iteration can request are 2, 3, 5 and 6. -/
lemma processPath_exit_subset (cfg : Config) (w : PathWorld) (p : String)
    (fs : List (String × String)) :
    (processPath cfg w p fs).exitCode = none ∨
    (processPath cfg w p fs).exitCode = some 2 ∨
    (processPath cfg w p fs).exitCode = some 3 ∨
    (processPath cfg w p fs).exitCode = some 5 ∨
    (processPath cfg w p fs).exitCode = some 6 := by
  unfold processPath
  rcases w.absResult with _ | absPath
  · rcases hs : cfg.strictMode <;> simp [hs, FesterizeError.code]
  · simp only
    repeat' split
    all_goals rcases hs : cfg.strictMode <;> simp_all [FesterizeError.code]

/-- In lenient mode the loop records one outcome per input path and never
requests an exit code. -/
lemma runBatch_lenient (cfg : Config) (h : cfg.strictMode = false) :
    ∀ (items : List (String × PathWorld)) (fs : List (String × String)),
      (runBatch cfg items fs).outcomes.length = items.length ∧
      (runBatch cfg items fs).exitCode = none := by
  intro items
  induction items with
  | nil => intro fs; simp [runBatch]
  | cons pw rest ih =>
    intro fs
    rcases pw with ⟨p, w⟩
    have hnone := processPath_exit_of_lenient cfg w p fs h
    simp only [runBatch, hnone]
    simpa using ih (processPath cfg w p fs).fs

/-- If every path before a failing one is clean, the loop stops at the
failing path with its exit code, having recorded outcomes only up to and
including it. -/
lemma runBatch_strict_first_failure (cfg : Config) (c : Nat)
    (p : String) (w : PathWorld) (hfail : (processPath cfg w p []).exitCode = some c) :
    ∀ (pre post : List (String × PathWorld)) (fs : List (String × String)),
      (∀ q v, (q, v) ∈ pre → (processPath cfg v q []).exitCode = none) →
      (runBatch cfg (pre ++ (p, w) :: post) fs).exitCode = some c ∧
      (runBatch cfg (pre ++ (p, w) :: post) fs).outcomes.length = pre.length + 1 := by
  intro pre
  induction pre with
  | nil =>
    intro post fs _
    have hfs := (processPath_fs_irrelevant cfg w p fs []).2.2
    simp only [List.nil_append, runBatch]
    rw [hfs, hfail]
    simp
  | cons qv rest ih =>
    intro post fs hpre
    rcases qv with ⟨q, v⟩
    have hq : (processPath cfg v q []).exitCode = none :=
      hpre q v (List.mem_cons_self _ _)
    have hqfs : (processPath cfg v q fs).exitCode = none := by
      rw [(processPath_fs_irrelevant cfg v q fs []).2.2]; exact hq
    simp only [List.cons_append, runBatch, hqfs]
    have := ih post (processPath cfg v q fs).fs
      (fun r u hr => hpre r u (List.mem_cons_of_mem _ hr))
    simp [this.1, this.2]

/-- The loop as a whole can only produce the exit codes 2, 3, 5 and 6. -/
lemma runBatch_exit_subset (cfg : Config) :
    ∀ (items : List (String × PathWorld)) (fs : List (String × String)),
      (runBatch cfg items fs).exitCode = none ∨
      (runBatch cfg items fs).exitCode = some 2 ∨
      (runBatch cfg items fs).exitCode = some 3 ∨
      (runBatch cfg items fs).exitCode = some 5 ∨
      (runBatch cfg items fs).exitCode = some 6 := by
  intro items
  induction items with
  | nil => intro fs; simp [runBatch]
  | cons pw rest ih =>
    intro fs
    rcases pw with ⟨p, w⟩
    rcases hstep : (processPath cfg w p fs).exitCode with _ | c
    · simp only [runBatch, hstep]
      simpa using ih (processPath cfg w p fs).fs
    · simp only [runBatch, hstep]
      rcases processPath_exit_subset cfg w p fs with h | h | h | h | h <;>
        rw [hstep] at h <;> simp_all

/-- The command-line phase can only exit with 0 or 1. -/
lemma rootCmdRun_exit_subset (cfg : Config) (args srcInit : List String) :
    (rootCmdRun cfg args srcInit).1 = none ∨
    (rootCmdRun cfg args srcInit).1 = some 0 ∨
    (rootCmdRun cfg args srcInit).1 = some 1 := by
  unfold rootCmdRun
  repeat' split
  all_goals simp [FesterizeError.code]

/-- The whole process can only exit with 0, 1, 2, 3, 5, 6 or 7. -/
lemma festerizeMain_exit_subset (cfg : Config) (env : MainEnv) (args : List String) :
    (festerizeMain cfg env args).exitCode = 0 ∨
    (festerizeMain cfg env args).exitCode = 1 ∨
    (festerizeMain cfg env args).exitCode = 2 ∨
    (festerizeMain cfg env args).exitCode = 3 ∨
    (festerizeMain cfg env args).exitCode = 5 ∨
    (festerizeMain cfg env args).exitCode = 6 ∨
    (festerizeMain cfg env args).exitCode = 7 := by
  unfold festerizeMain
  by_cases he : env.execOk = false
  · simp [he]
  · simp only [he]
    rcases hr : rootCmdRun cfg args [] with ⟨code, src⟩
    rcases code with _ | c
    · simp only
      by_cases ho : env.outputDirOk = false
      · simp [ho, FesterizeError.code]
      · simp only [ho]
        rcases runBatch_exit_subset cfg (src.zip env.worlds) env.initialFs with
          h | h | h | h | h <;> simp [h]
    · have := rootCmdRun_exit_subset cfg args []
      rw [hr] at this
      simp only at this
      rcases this with h | h | h <;> simp_all

/-- The multipart body built by `uploadCSV` is exactly the part list of
section 4.2 of the specification. -/
lemma buildUploadBody_parts (fp fc v hh : String) (m : Bool) :
    (buildUploadBody fp fc v hh m).parts = specMultipartParts fp fc v hh m := by
  unfold buildUploadBody specMultipartParts MultipartWriter.createFormFile
    MultipartWriter.writeField
  by_cases h1 : hh = "" <;> by_cases h2 : m <;> simp [h1, h2]

/-- Once the source file opens and copies, `uploadCSV` reports exactly the
specification part list whatever happens afterwards. -/
lemma uploadCSV_parts (env : UploadEnv) (fp url v hh : String) (m : Bool)
    (ho : env.openOk = true) (hc : env.copyOk = true) :
    (uploadCSV env fp url v hh m).parts = specMultipartParts fp env.fileContent v hh m := by
  unfold uploadCSV
  rw [ho, hc]
  simp only [Bool.true_eq_false, if_false]
  rw [← buildUploadBody_parts fp env.fileContent v hh m]
  repeat' split
  all_goals rfl

/-- Whenever `uploadCSV` reached the network, the parts it posted are the
specification part list. -/
lemma uploadCSV_network_parts (env : UploadEnv) (fp url v hh : String) (m : Bool)
    (hnet : (uploadCSV env fp url v hh m).networkCalled = true) :
    (uploadCSV env fp url v hh m).parts = specMultipartParts fp env.fileContent v hh m := by
  unfold uploadCSV at *
  repeat' split at hnet
  all_goals simp_all [buildUploadBody_parts]

/-- With a missing or empty credential, `uploadCSV` fails with the matching
credential error and never reaches the network. -/
lemma uploadCSV_no_creds (env : UploadEnv) (fp url v hh : String) (m : Bool)
    (ho : env.openOk = true) (hc : env.copyOk = true) (hn : env.newRequestOk = true)
    (hcred : env.envUsername = "" ∨ env.envPassword = "") :
    (uploadCSV env fp url v hh m).networkCalled = false ∧
    ((uploadCSV env fp url v hh m).result = .failure .missingUsername ∨
     (uploadCSV env fp url v hh m).result = .failure .missingPassword) := by
  unfold uploadCSV
  rw [ho, hc, hn]
  by_cases hu : env.envUsername = ""
  · simp [hu]
  · rcases hcred with h | h
    · exact absurd h hu
    · simp [hu, h]

/-- With everything local fine but the round trip failing, `uploadCSV`
returns the transport error after making the network call. -/
lemma uploadCSV_transport_error (env : UploadEnv) (fp url v hh : String) (m : Bool)
    (ho : env.openOk = true) (hc : env.copyOk = true) (hn : env.newRequestOk = true)
    (hu : env.envUsername ≠ "") (hp : env.envPassword ≠ "") (ht : env.transport = none) :
    (uploadCSV env fp url v hh m).result = .failure .transportFailed ∧
    (uploadCSV env fp url v hh m).networkCalled = true := by
  unfold uploadCSV
  rw [ho, hc, hn]
  simp [hu, hp, ht]

/-- Writing a file makes it readable under its name with that content. -/
lemma getFile_setFile (fs : List (String × String)) (n c : String) :
    getFile (setFile fs n c) n = some c := by
  induction fs with
  | nil => simp [setFile, getFile]
  | cons hd rest ih =>
    rcases hd with ⟨m, d⟩
    by_cases h : m = n
    · simp [setFile, getFile, h]
    · simp [setFile, getFile, h, ih]

/-- With local file operations succeeding, a body is written for a path
exactly when the file exists, has a CSV extension, and its upload came back
with status 201. -/
lemma processPath_write_iff (cfg : Config) (w : PathWorld) (p : String)
    (fs : List (String × String)) (absPath : String)
    (ha : w.absResult = some absPath) (hc : w.createOk = true) (hw : w.writeOk = true) :
    (∃ b, Event.fileWrote (goBase absPath) b ∈ (processPath cfg w p fs).events) ↔
      (w.statExists = true ∧ hasCsvExtension (goBase absPath) = true ∧
       ∃ resp body,
         (uploadCSV w.upload absPath (uploadUrlOf cfg) cfg.iiifApiVersion cfg.iiifhost
           cfg.metadata).result = .success resp body ∧ resp.statusCode = 201) := by
  unfold processPath
  rw [ha]
  rcases hst : w.statExists with _ | _
  · simp [hst]
  · by_cases hcsv : hasCsvExtension (goBase absPath) = true
    · simp only [hst, Bool.true_eq_false, if_false, hcsv, if_true]
      rcases hres : (uploadCSV w.upload absPath (uploadUrlOf cfg) cfg.iiifApiVersion cfg.iiifhost
          cfg.metadata).result with e | ⟨resp, body⟩
      · rcases hnet : (uploadCSV w.upload absPath (uploadUrlOf cfg) cfg.iiifApiVersion
            cfg.iiifhost cfg.metadata).networkCalled <;> simp [hres, hnet]
      · by_cases h201 : resp.statusCode = 201
        · rcases hnet : (uploadCSV w.upload absPath (uploadUrlOf cfg) cfg.iiifApiVersion
              cfg.iiifhost cfg.metadata).networkCalled <;>
            simp [hres, hnet, h201, hc, hw]
        · rcases hnet : (uploadCSV w.upload absPath (uploadUrlOf cfg) cfg.iiifApiVersion
              cfg.iiifhost cfg.metadata).networkCalled <;>
            simp [hres, hnet, h201]
    · simp [hst, hcsv]

/-- With local file operations succeeding, the output file is created for a
path exactly when the file exists, has a CSV extension, and its upload came
back with status 201. -/
lemma processPath_create_iff (cfg : Config) (w : PathWorld) (p : String)
    (fs : List (String × String)) (absPath : String)
    (ha : w.absResult = some absPath) (hc : w.createOk = true) (hw : w.writeOk = true) :
    (Event.fileCreated (goBase absPath) ∈ (processPath cfg w p fs).events) ↔
      (w.statExists = true ∧ hasCsvExtension (goBase absPath) = true ∧
       ∃ resp body,
         (uploadCSV w.upload absPath (uploadUrlOf cfg) cfg.iiifApiVersion cfg.iiifhost
           cfg.metadata).result = .success resp body ∧ resp.statusCode = 201) := by
  unfold processPath
  rw [ha]
  rcases hst : w.statExists with _ | _
  · simp [hst]
  · by_cases hcsv : hasCsvExtension (goBase absPath) = true
    · simp only [hst, Bool.true_eq_false, if_false, hcsv, if_true]
      rcases hres : (uploadCSV w.upload absPath (uploadUrlOf cfg) cfg.iiifApiVersion cfg.iiifhost
          cfg.metadata).result with e | ⟨resp, body⟩
      · rcases hnet : (uploadCSV w.upload absPath (uploadUrlOf cfg) cfg.iiifApiVersion
            cfg.iiifhost cfg.metadata).networkCalled <;> simp [hres, hnet]
      · by_cases h201 : resp.statusCode = 201
        · rcases hnet : (uploadCSV w.upload absPath (uploadUrlOf cfg) cfg.iiifApiVersion
              cfg.iiifhost cfg.metadata).networkCalled <;>
            simp [hres, hnet, h201, hc, hw]
        · rcases hnet : (uploadCSV w.upload absPath (uploadUrlOf cfg) cfg.iiifApiVersion
              cfg.iiifhost cfg.metadata).networkCalled <;>
            simp [hres, hnet, h201]
    · simp [hst, hcsv]

/-- When the upload succeeded with 201, the output file was created, but the
body write fails, the iteration leaves the truncated empty file in the output
directory and emits no write event. -/
lemma processPath_write_fail (cfg : Config) (w : PathWorld) (p : String)
    (fs : List (String × String)) (absPath : String) (resp : Response) (body : String)
    (ha : w.absResult = some absPath) (hst : w.statExists = true)
    (hcsv : hasCsvExtension (goBase absPath) = true)
    (hres : (uploadCSV w.upload absPath (uploadUrlOf cfg) cfg.iiifApiVersion cfg.iiifhost
      cfg.metadata).result = .success resp body)
    (h201 : resp.statusCode = 201) (hc : w.createOk = true) (hw : w.writeOk = false) :
    (processPath cfg w p fs).fs = setFile fs (goBase absPath) "" ∧
    (processPath cfg w p fs).outcome = .writeFailed ∧
    Event.fileCreated (goBase absPath) ∈ (processPath cfg w p fs).events ∧
    ∀ n b, ¬ Event.fileWrote n b ∈ (processPath cfg w p fs).events := by
  unfold processPath
  rw [ha]
  rcases hnet : (uploadCSV w.upload absPath (uploadUrlOf cfg) cfg.iiifApiVersion cfg.iiifhost
      cfg.metadata).networkCalled <;>
    simp [hst, hcsv, hres, hnet, h201, hc, hw]

/-- With empty credentials an iteration emits no event at all and either
skips the path or records the credential failure. -/
lemma processPath_no_creds (cfg : Config) (w : PathWorld) (p : String)
    (fs : List (String × String))
    (hgood : w.upload.openOk = true ∧ w.upload.copyOk = true ∧ w.upload.newRequestOk = true)
    (hcred : w.upload.envUsername = "" ∨ w.upload.envPassword = "") :
    (processPath cfg w p fs).events = [] ∧
    ((processPath cfg w p fs).outcome = .uploadError .missingUsername ∨
     (processPath cfg w p fs).outcome = .uploadError .missingPassword ∨
     (processPath cfg w p fs).outcome = .absError ∨
     (processPath cfg w p fs).outcome = .missingFile ∨
     (processPath cfg w p fs).outcome = .notCsv) := by
  unfold processPath
  rcases w.absResult with _ | absPath
  · simp
  · rcases hst : w.statExists with _ | _
    · simp [hst]
    · by_cases hcsv : hasCsvExtension (goBase absPath) = true
      · obtain ⟨hno, hres⟩ := uploadCSV_no_creds w.upload absPath (uploadUrlOf cfg)
          cfg.iiifApiVersion cfg.iiifhost cfg.metadata hgood.1 hgood.2.1 hgood.2.2 hcred
        rcases hres with hres | hres <;>
          simp [hst, hcsv, hres, hno]
      · simp [hst, hcsv]

/-- With empty credentials through the whole batch, the run performs no
network call, writes nothing, and every recorded outcome is a skip or a
credential failure. -/
lemma runBatch_no_creds (cfg : Config) :
    ∀ (items : List (String × PathWorld)) (fs : List (String × String)),
      (∀ pw : String × PathWorld, pw ∈ items →
        (pw.2.upload.openOk = true ∧ pw.2.upload.copyOk = true ∧
         pw.2.upload.newRequestOk = true) ∧
        (pw.2.upload.envUsername = "" ∨ pw.2.upload.envPassword = "")) →
      (runBatch cfg items fs).events = [] ∧
      (∀ o ∈ (runBatch cfg items fs).outcomes,
        o = .uploadError .missingUsername ∨ o = .uploadError .missingPassword ∨
        o = .absError ∨ o = .missingFile ∨ o = .notCsv) := by
  intro items
  induction items with
  | nil => intro fs _; simp [runBatch]
  | cons pw rest ih =>
    intro fs hall
    rcases pw with ⟨p, w⟩
    have hhead := hall (p, w) (List.mem_cons_self _ _)
    have hstep := processPath_no_creds cfg w p fs hhead.1 hhead.2
    rcases hexit : (processPath cfg w p fs).exitCode with _ | c
    · simp only [runBatch, hexit]
      have htail := ih (processPath cfg w p fs).fs
        (fun qv hq => hall qv (List.mem_cons_of_mem _ hq))
      constructor
      · simp [hstep.1, htail.1]
      · intro o ho
        simp only [List.mem_cons] at ho
        rcases ho with rfl | ho
        · exact hstep.2
        · exact htail.2 o ho
    · simp only [runBatch, hexit]
      constructor
      · simp [hstep.1]
      · intro o ho
        simp only [List.mem_cons, List.not_mem_nil, or_false] at ho
        rw [ho]
        exact hstep.2

/-- Every posted multipart body observable in the event trace is the
specification part list for the path's absolute path and file content. -/
lemma processPath_networkCall_mem (cfg : Config) (w : PathWorld) (p : String)
    (fs : List (String × String)) (ps : List Part)
    (hmem : Event.networkCall ps ∈ (processPath cfg w p fs).events) :
    ∃ absPath, w.absResult = some absPath ∧
      ps = specMultipartParts absPath w.upload.fileContent cfg.iiifApiVersion cfg.iiifhost
        cfg.metadata := by
  unfold processPath at hmem
  rcases habs : w.absResult with _ | absPath
  · rw [habs] at hmem; simp at hmem
  · rw [habs] at hmem
    refine ⟨absPath, rfl, ?_⟩
    rcases hst : w.statExists with _ | _
    · rw [hst] at hmem; simp at hmem
    · by_cases hcsv : hasCsvExtension (goBase absPath) = true
      · simp only [hst, Bool.true_eq_false, if_false, hcsv, if_true] at hmem
        rcases hnet : (uploadCSV w.upload absPath (uploadUrlOf cfg) cfg.iiifApiVersion
            cfg.iiifhost cfg.metadata).networkCalled with _ | _
        · rcases hres : (uploadCSV w.upload absPath (uploadUrlOf cfg) cfg.iiifApiVersion
              cfg.iiifhost cfg.metadata).result with e | ⟨resp, body⟩ <;>
            rw [hres] at hmem
          · simp [hnet] at hmem
          · by_cases h201 : resp.statusCode = 201 <;>
              rcases hcr : w.createOk with _ | _ <;>
              rcases hwr : w.writeOk with _ | _ <;>
              simp_all
        · have hps := uploadCSV_network_parts w.upload absPath (uploadUrlOf cfg)
            cfg.iiifApiVersion cfg.iiifhost cfg.metadata hnet
          rcases hres : (uploadCSV w.upload absPath (uploadUrlOf cfg) cfg.iiifApiVersion
              cfg.iiifhost cfg.metadata).result with e | ⟨resp, body⟩ <;>
            rw [hres] at hmem
          · simp [hnet] at hmem
            rw [hmem, hps]
          · by_cases h201 : resp.statusCode = 201 <;>
              rcases hcr : w.createOk with _ | _ <;>
              rcases hwr : w.writeOk with _ | _ <;>
              simp_all
      · simp [hst, hcsv] at hmem

/-- In strict mode a transport failure on an eligible file is handled on the
server-error path: the outcome is the transport error and the requested exit
code is `FesterErrorResponse`. -/
lemma processPath_transport_strict (cfg : Config) (w : PathWorld) (p : String)
    (fs : List (String × String)) (absPath : String)
    (hstrict : cfg.strictMode = true) (ha : w.absResult = some absPath)
    (hst : w.statExists = true) (hcsv : hasCsvExtension (goBase absPath) = true)
    (ho : w.upload.openOk = true) (hcp : w.upload.copyOk = true)
    (hn : w.upload.newRequestOk = true) (hu : w.upload.envUsername ≠ "")
    (hpw : w.upload.envPassword ≠ "") (ht : w.upload.transport = none) :
    (processPath cfg w p fs).outcome = .uploadError .transportFailed ∧
    (processPath cfg w p fs).exitCode = some 5 := by
  obtain ⟨hres, hnet⟩ := uploadCSV_transport_error w.upload absPath (uploadUrlOf cfg)
    cfg.iiifApiVersion cfg.iiifhost cfg.metadata ho hcp hn hu hpw ht
  unfold processPath
  rw [ha]
  simp [hst, hcsv, hres, hnet, hstrict, FesterizeError.code]

/-- A lenient run past a successful startup exits 0 and records one outcome
per argument. -/
lemma festerizeMain_lenient (cfg : Config) (env : MainEnv) (args : List String)
    (hstrict : cfg.strictMode = false) (hexec : env.execOk = true) (hargs : args ≠ [])
    (hv : validateVersion cfg.iiifApiVersion = true)
    (hl : validateLoglevel cfg.loglevel = true) (hout : env.outputDirOk = true)
    (hlen : env.worlds.length = args.length) :
    (festerizeMain cfg env args).exitCode = 0 ∧
    (festerizeMain cfg env args).outcomes.length = args.length := by
  have hr : rootCmdRun cfg args [] = (none, args) := by
    unfold rootCmdRun
    have h0 : args.length = 0 ↔ False := by
      simp [List.length_eq_zero, hargs]
    simp [h0, hv, hl]
  unfold festerizeMain
  rw [hexec]
  simp only [Bool.true_eq_false, if_false, hr]
  rw [hout]
  simp only [Bool.true_eq_false, if_false]
  obtain ⟨hlen2, hexit⟩ := runBatch_lenient cfg hstrict (args.zip env.worlds) env.initialFs
  simp [hexit, hlen2, List.length_zip, hlen]

/-! The claim theorems. -/

/-- Claim C1 (evaluation at the failing input): the claim says success
classification is mode-dependent, with thumbnail mode treating exactly
status 200 as success.  The code tests `err == nil && response.StatusCode == 201`
in both modes, so a thumbnail-mode upload answered with 200, the thumbnails
endpoint success status recorded by the repository test suite, is classified
as a server error: the outcome is the server-error outcome, nothing is
written to the output directory, the only event is the network call, and in
strict mode the run exits with `FesterErrorResponse` (5). -/
theorem thumbnail_success_status_treated_as_error :
    (processPath thumbnailCfg thumb200World "works.csv" []).outcome = Outcome.serverError 200 ∧
    (processPath thumbnailCfg thumb200World "works.csv" []).fs = [] ∧
    (processPath thumbnailCfg thumb200World "works.csv" []).events
      = [Event.networkCall
          (specMultipartParts "/data/works.csv" thumb200UploadEnv.fileContent "3" "" false)] ∧
    (processPath strictThumbnailCfg thumb200World "works.csv" []).exitCode = some 5 := by
  decide

/-- Claim C2: with the local create and write succeeding, a body is written
to the output directory for a path (equally: its output file is created) if
and only if the file exists, carries the CSV extension, and its upload
returned without transport error with the created status 201. -/
theorem output_file_written_iff_upload_created (cfg : Config) (w : PathWorld) (p : String)
    (fs : List (String × String)) (absPath : String)
    (ha : w.absResult = some absPath) (hc : w.createOk = true) (hw : w.writeOk = true) :
    ((∃ b, Event.fileWrote (goBase absPath) b ∈ (processPath cfg w p fs).events) ↔
      (w.statExists = true ∧ hasCsvExtension (goBase absPath) = true ∧
       ∃ resp body,
         (uploadCSV w.upload absPath (uploadUrlOf cfg) cfg.iiifApiVersion cfg.iiifhost
           cfg.metadata).result = .success resp body ∧ resp.statusCode = 201)) ∧
    ((Event.fileCreated (goBase absPath) ∈ (processPath cfg w p fs).events) ↔
      (w.statExists = true ∧ hasCsvExtension (goBase absPath) = true ∧
       ∃ resp body,
         (uploadCSV w.upload absPath (uploadUrlOf cfg) cfg.iiifApiVersion cfg.iiifhost
           cfg.metadata).result = .success resp body ∧ resp.statusCode = 201)) :=
  ⟨processPath_write_iff cfg w p fs absPath ha hc hw,
   processPath_create_iff cfg w p fs absPath ha hc hw⟩

/-- Witness for claim C2 at a concrete successful upload. -/
theorem output_file_written_iff_upload_created_witness :
    ∃ b, Event.fileWrote (goBase "/data/a.csv") b
      ∈ (processPath lenientCfg worldOk "a.csv" []).events := by
  have h := output_file_written_iff_upload_created lenientCfg worldOk "a.csv" []
    "/data/a.csv" rfl rfl rfl
  exact h.1.mpr ⟨rfl, by decide, ⟨201, okBody⟩, okBody, rfl, rfl⟩

/-- Claim C3: in strict mode, if every path before one is clean and that
path triggers an exit, the whole run stops there with that condition's exit
code, no later path receiving an outcome; the code is 2 for a missing file,
3 for a non-CSV extension, 5 for an upload or service error, and 6 for a
local file input/output failure. -/
theorem strict_mode_first_failure_terminates (cfg : Config)
    (pre post : List (String × PathWorld)) (p : String) (w : PathWorld)
    (fs : List (String × String)) (c : Nat)
    (hstrict : cfg.strictMode = true)
    (hpre : ∀ q v, (q, v) ∈ pre → (processPath cfg v q []).exitCode = none)
    (hfail : (processPath cfg w p []).exitCode = some c) :
    (runBatch cfg (pre ++ (p, w) :: post) fs).exitCode = some c ∧
    (runBatch cfg (pre ++ (p, w) :: post) fs).outcomes.length = pre.length + 1 ∧
    (((processPath cfg w p []).outcome = .missingFile ∧ c = 2) ∨
     ((processPath cfg w p []).outcome = .notCsv ∧ c = 3) ∨
     (((∃ e, (processPath cfg w p []).outcome = .uploadError e) ∨
       (∃ s, (processPath cfg w p []).outcome = .serverError s)) ∧ c = 5) ∨
     (((processPath cfg w p []).outcome = .absError ∨
       (processPath cfg w p []).outcome = .createFailed ∨
       (processPath cfg w p []).outcome = .writeFailed) ∧ c = 6)) := by
  obtain ⟨h1, h2⟩ := runBatch_strict_first_failure cfg c p w hfail pre post fs hpre
  refine ⟨h1, h2, ?_⟩
  rcases processPath_strict_classified cfg w p [] hstrict with
    ⟨hn, _⟩ | ⟨he, ho⟩ | ⟨he, ho⟩ | ⟨he, ho⟩ | ⟨he, ho⟩
  · rw [hfail] at hn
    exact absurd hn (by simp)
  · rw [hfail] at he
    exact Or.inl ⟨ho, Option.some_inj.mp he⟩
  · rw [hfail] at he
    exact Or.inr (Or.inl ⟨ho, Option.some_inj.mp he⟩)
  · rw [hfail] at he
    exact Or.inr (Or.inr (Or.inl ⟨ho, Option.some_inj.mp he⟩))
  · rw [hfail] at he
    exact Or.inr (Or.inr (Or.inr ⟨ho, Option.some_inj.mp he⟩))

/-- Witness for claim C3: a strict run over a clean file, a missing file and
a further file stops at the missing file with exit code 2, recording two
outcomes. -/
theorem strict_mode_first_failure_terminates_witness :
    (runBatch strictCfg
      [("a.csv", worldOk), ("missing.csv", worldMissing), ("b.csv", worldOk)] []).exitCode
      = some 2 ∧
    (runBatch strictCfg
      [("a.csv", worldOk), ("missing.csv", worldMissing), ("b.csv", worldOk)] []).outcomes.length
      = 2 := by
  have h := strict_mode_first_failure_terminates strictCfg [("a.csv", worldOk)]
    [("b.csv", worldOk)] "missing.csv" worldMissing [] 2 rfl
    (by
      intro q v hm
      simp only [List.mem_singleton, Prod.mk.injEq] at hm
      obtain ⟨rfl, rfl⟩ := hm
      decide)
    (by decide)
  exact ⟨h.1, h.2.1⟩

/-- Claim C4: in lenient mode the loop records one outcome per input path
whatever fails, and a lenient run past a successful startup exits 0 with one
outcome per argument. -/
theorem lenient_mode_full_coverage_exit_zero :
    (∀ (cfg : Config) (items : List (String × PathWorld)) (fs : List (String × String)),
       cfg.strictMode = false →
       (runBatch cfg items fs).outcomes.length = items.length ∧
       (runBatch cfg items fs).exitCode = none) ∧
    (∀ (cfg : Config) (env : MainEnv) (args : List String),
       cfg.strictMode = false → env.execOk = true → args ≠ [] →
       validateVersion cfg.iiifApiVersion = true → validateLoglevel cfg.loglevel = true →
       env.outputDirOk = true → env.worlds.length = args.length →
       (festerizeMain cfg env args).exitCode = 0 ∧
       (festerizeMain cfg env args).outcomes.length = args.length) :=
  ⟨fun cfg items fs h => runBatch_lenient cfg h items fs,
   fun cfg env args h1 h2 h3 h4 h5 h6 h7 =>
     festerizeMain_lenient cfg env args h1 h2 h3 h4 h5 h6 h7⟩

/-- Witness for claim C4: a lenient two-file run with a missing first file
still processes both paths and exits 0. -/
theorem lenient_mode_full_coverage_exit_zero_witness :
    ((runBatch lenientCfg [("missing.csv", worldMissing), ("a.csv", worldOk)] []).outcomes.length
        = 2 ∧
     (runBatch lenientCfg [("missing.csv", worldMissing), ("a.csv", worldOk)] []).exitCode
        = none) ∧
    ((festerizeMain lenientCfg lenientMainEnv ["missing.csv", "a.csv"]).exitCode = 0 ∧
     (festerizeMain lenientCfg lenientMainEnv ["missing.csv", "a.csv"]).outcomes.length = 2) := by
  constructor
  · exact lenient_mode_full_coverage_exit_zero.1 lenientCfg
      [("missing.csv", worldMissing), ("a.csv", worldOk)] [] rfl
  · exact lenient_mode_full_coverage_exit_zero.2 lenientCfg lenientMainEnv
      ["missing.csv", "a.csv"] rfl rfl (by decide) rfl rfl rfl rfl

/-- Counterexample to claim C5 as stated: with no input files the process
exits with code 0 after showing help, not with code 1. -/
theorem no_input_files_exit_one_counterexample :
    (festerizeMain lenientCfg emptyMainEnv []).exitCode = 0 ∧
    ¬ (festerizeMain lenientCfg emptyMainEnv []).exitCode = 1 := by
  decide

/-- Claim C5 as amended: if no input files are specified, the process shows
the command help and exits with code 0, processing nothing; the no-files
branch that would exit with code 1 is unreachable, and exit code 1 is
reserved for invalid configuration and generic command errors. -/
theorem no_input_files_shows_help_and_exits_zero (cfg : Config) (env : MainEnv)
    (hexec : env.execOk = true) :
    (festerizeMain cfg env []).exitCode = 0 ∧ (festerizeMain cfg env []).outcomes = [] := by
  unfold festerizeMain rootCmdRun
  rw [hexec]
  simp

/-- Witness for the amended claim C5. -/
theorem no_input_files_shows_help_and_exits_zero_witness :
    (festerizeMain strictCfg emptyMainEnv []).exitCode = 0 ∧
    (festerizeMain strictCfg emptyMainEnv []).outcomes = [] :=
  no_input_files_shows_help_and_exits_zero strictCfg emptyMainEnv rfl

/-- Claim C6: when either credential environment value is empty, an
attempted upload fails as a credential configuration error before any
network call, and a whole run with empty credentials performs no network
call and reports the credential failure for every file that reaches the
upload stage (the rest being skips). -/
theorem missing_credentials_fail_before_network :
    (∀ (env : UploadEnv) (fp url v hh : String) (m : Bool),
       env.openOk = true → env.copyOk = true → env.newRequestOk = true →
       (env.envUsername = "" ∨ env.envPassword = "") →
       (uploadCSV env fp url v hh m).networkCalled = false ∧
       ((uploadCSV env fp url v hh m).result = .failure .missingUsername ∨
        (uploadCSV env fp url v hh m).result = .failure .missingPassword)) ∧
    (∀ (cfg : Config) (items : List (String × PathWorld)) (fs : List (String × String)),
       (∀ pw : String × PathWorld, pw ∈ items →
         (pw.2.upload.openOk = true ∧ pw.2.upload.copyOk = true ∧
          pw.2.upload.newRequestOk = true) ∧
         (pw.2.upload.envUsername = "" ∨ pw.2.upload.envPassword = "")) →
       (runBatch cfg items fs).events = [] ∧
       (∀ o ∈ (runBatch cfg items fs).outcomes,
         o = .uploadError .missingUsername ∨ o = .uploadError .missingPassword ∨
         o = .absError ∨ o = .missingFile ∨ o = .notCsv)) :=
  ⟨fun env fp url v hh m ho hc hn hcred => uploadCSV_no_creds env fp url v hh m ho hc hn hcred,
   fun cfg items fs hall => runBatch_no_creds cfg items fs hall⟩

/-- Witness for claim C6 at a concrete credential-free upload and run. -/
theorem missing_credentials_fail_before_network_witness :
    ((uploadCSV noCredsUploadEnv "/data/a.csv"
        "https://ingest.iiif.library.ucla.edu/collections" "2" "" false).networkCalled
        = false ∧
     ((uploadCSV noCredsUploadEnv "/data/a.csv"
        "https://ingest.iiif.library.ucla.edu/collections" "2" "" false).result
        = .failure .missingUsername ∨
      (uploadCSV noCredsUploadEnv "/data/a.csv"
        "https://ingest.iiif.library.ucla.edu/collections" "2" "" false).result
        = .failure .missingPassword)) ∧
    ((runBatch lenientCfg [("a.csv", worldNoCreds)] []).events = [] ∧
     (∀ o ∈ (runBatch lenientCfg [("a.csv", worldNoCreds)] []).outcomes,
       o = .uploadError .missingUsername ∨ o = .uploadError .missingPassword ∨
       o = .absError ∨ o = .missingFile ∨ o = .notCsv)) := by
  constructor
  · exact missing_credentials_fail_before_network.1 noCredsUploadEnv "/data/a.csv"
      "https://ingest.iiif.library.ucla.edu/collections" "2" "" false rfl rfl rfl (Or.inl rfl)
  · exact missing_credentials_fail_before_network.2 lenientCfg [("a.csv", worldNoCreds)] []
      (by
        intro pw hm
        simp only [List.mem_singleton] at hm
        subst hm
        exact ⟨⟨rfl, rfl, rfl⟩, Or.inl rfl⟩)

/-- Claim C7: the multipart body contains exactly the file part named "file"
carrying the absolute path string and the source bytes, the "iiif-version"
field, the optional "iiif-host" field and the optional "metadata-update"
field, in that order; and every body observable on the wire in a run is that
list built from the path's absolute path. -/
theorem multipart_body_parts_as_specified :
    (∀ (env : UploadEnv) (fp url v hh : String) (m : Bool),
       env.openOk = true → env.copyOk = true →
       (uploadCSV env fp url v hh m).parts = specMultipartParts fp env.fileContent v hh m) ∧
    (∀ (cfg : Config) (w : PathWorld) (p : String) (fs : List (String × String))
       (ps : List Part),
       Event.networkCall ps ∈ (processPath cfg w p fs).events →
       ∃ absPath, w.absResult = some absPath ∧
         ps = specMultipartParts absPath w.upload.fileContent cfg.iiifApiVersion cfg.iiifhost
           cfg.metadata) :=
  ⟨fun env fp url v hh m ho hc => uploadCSV_parts env fp url v hh m ho hc,
   fun cfg w p fs ps hmem => processPath_networkCall_mem cfg w p fs ps hmem⟩

/-- Witness for claim C7 with a non-empty image host and metadata-update
mode on. -/
theorem multipart_body_parts_as_specified_witness :
    (uploadCSV okUploadEnv "/data/a.csv" "https://ingest.iiif.library.ucla.edu/collections"
      "2" "https://iiif.host.example" true).parts
      = specMultipartParts "/data/a.csv" okUploadEnv.fileContent "2"
          "https://iiif.host.example" true :=
  multipart_body_parts_as_specified.1 okUploadEnv "/data/a.csv"
    "https://ingest.iiif.library.ucla.edu/collections" "2" "https://iiif.host.example" true
    rfl rfl

/-- Claim C8: the CSV-extension check is a case-insensitive comparison of
the final extension segment with ".csv": the listed examples behave as the
claim states, and over ASCII filenames the check passes exactly the names
ending in a dot followed by case variants of c, s, v. -/
theorem csv_extension_check_case_insensitive :
    (hasCsvExtension "FILE.CSV" = true ∧ hasCsvExtension "file.csv" = true ∧
     hasCsvExtension "file.Csv" = true ∧ hasCsvExtension "file.txt" = false ∧
     hasCsvExtension "file" = false) ∧
    ∀ name : String, (∀ c ∈ name.data, c.toNat ≤ 127) →
      (hasCsvExtension name = true ↔
        ∃ stemL c2 c3 c4, name.data = stemL ++ ['.', c2, c3, c4] ∧
          (c2 = 'c' ∨ c2 = 'C') ∧ (c3 = 's' ∨ c3 = 'S') ∧ (c4 = 'v' ∨ c4 = 'V')) := by
  refine ⟨⟨by decide, by decide, by decide, by decide, by decide⟩, ?_⟩
  intro name hascii
  constructor
  · exact shape_of_hasCsv name hascii
  · rintro ⟨stemL, c2, c3, c4, hdata, h2, h3, h4⟩
    have hshape := hasCsv_of_shape stemL c2 c3 c4 h2 h3 h4
    have hname : name = ⟨stemL ++ ['.', c2, c3, c4]⟩ := by
      rcases name with ⟨dataL⟩
      exact congrArg String.mk hdata
    rw [hname]
    exact hshape

/-- Witness for claim C8 at a mixed-case name. -/
theorem csv_extension_check_case_insensitive_witness :
    hasCsvExtension "data.cSV" = true :=
  (csv_extension_check_case_insensitive.2 "data.cSV" (by decide)).mpr
    ⟨['d', 'a', 't', 'a'], 'c', 'S', 'V', by decide, Or.inl rfl, Or.inr rfl, Or.inr rfl⟩

/-- Claim C9: no execution of the program exits with code 4
(`FesterUnavailable`): there is no pre-flight availability probe, and a
transport failure on an eligible file is handled on the per-file
server-error path, exiting 5 in strict mode. -/
theorem fester_unavailable_exit_code_never_used :
    (∀ (cfg : Config) (env : MainEnv) (args : List String),
       (festerizeMain cfg env args).exitCode ≠ FesterizeError.festerUnavailable.code) ∧
    (∀ (cfg : Config) (w : PathWorld) (p : String) (fs : List (String × String))
       (absPath : String),
       cfg.strictMode = true → w.absResult = some absPath → w.statExists = true →
       hasCsvExtension (goBase absPath) = true → w.upload.openOk = true →
       w.upload.copyOk = true → w.upload.newRequestOk = true →
       w.upload.envUsername ≠ "" → w.upload.envPassword ≠ "" →
       w.upload.transport = none →
       (processPath cfg w p fs).outcome = .uploadError .transportFailed ∧
       (processPath cfg w p fs).exitCode = some FesterizeError.festerErrorResponse.code) := by
  constructor
  · intro cfg env args
    rcases festerizeMain_exit_subset cfg env args with h | h | h | h | h | h | h <;>
      rw [h] <;> simp [FesterizeError.code]
  · intro cfg w p fs absPath h1 h2 h3 h4 h5 h6 h7 h8 h9 h10
    exact processPath_transport_strict cfg w p fs absPath h1 h2 h3 h4 h5 h6 h7 h8 h9 h10

/-- Witness for claim C9 at a concrete run and a concrete strict-mode
transport failure. -/
theorem fester_unavailable_exit_code_never_used_witness :
    (festerizeMain lenientCfg emptyMainEnv []).exitCode
      ≠ FesterizeError.festerUnavailable.code ∧
    ((processPath strictCfg worldTransportFail "a.csv" []).outcome
      = Outcome.uploadError UploadError.transportFailed ∧
     (processPath strictCfg worldTransportFail "a.csv" []).exitCode
      = some FesterizeError.festerErrorResponse.code) :=
  ⟨fester_unavailable_exit_code_never_used.1 lenientCfg emptyMainEnv [],
   fester_unavailable_exit_code_never_used.2 strictCfg worldTransportFail "a.csv" []
     "/data/a.csv" rfl rfl rfl (by decide) rfl rfl rfl (by decide) (by decide) rfl⟩

/-- Claim C10: the output-file write is not atomic: after a successful 201
upload the file is created, truncating any prior file of that name, before
the body is written, so when the body write fails the output directory holds
an empty file under that name, whatever it held before, and no write event
occurred. -/
theorem output_write_truncates_before_body_write (cfg : Config) (w : PathWorld) (p : String)
    (fs : List (String × String)) (absPath : String) (resp : Response) (body : String)
    (ha : w.absResult = some absPath) (hst : w.statExists = true)
    (hcsv : hasCsvExtension (goBase absPath) = true)
    (hres : (uploadCSV w.upload absPath (uploadUrlOf cfg) cfg.iiifApiVersion cfg.iiifhost
      cfg.metadata).result = .success resp body)
    (h201 : resp.statusCode = 201) (hc : w.createOk = true) (hw : w.writeOk = false) :
    getFile (processPath cfg w p fs).fs (goBase absPath) = some "" ∧
    (processPath cfg w p fs).outcome = .writeFailed ∧
    Event.fileCreated (goBase absPath) ∈ (processPath cfg w p fs).events ∧
    ∀ n b, ¬ Event.fileWrote n b ∈ (processPath cfg w p fs).events := by
  obtain ⟨hfs, hout, hcr, hnw⟩ :=
    processPath_write_fail cfg w p fs absPath resp body ha hst hcsv hres h201 hc hw
  refine ⟨?_, hout, hcr, hnw⟩
  rw [hfs]
  exact getFile_setFile fs (goBase absPath) ""

/-- Witness for claim C10: a failed write leaves an empty file where
"previous content" stood before. -/
theorem output_write_truncates_before_body_write_witness :
    getFile (processPath lenientCfg worldWriteFail "a.csv" [("a.csv", "previous content")]).fs
      (goBase "/data/a.csv") = some "" ∧
    (processPath lenientCfg worldWriteFail "a.csv" [("a.csv", "previous content")]).outcome
      = Outcome.writeFailed := by
  have h := output_write_truncates_before_body_write lenientCfg worldWriteFail "a.csv"
    [("a.csv", "previous content")] "/data/a.csv" ⟨201, okBody⟩ okBody rfl rfl (by decide)
    rfl rfl rfl rfl
  exact ⟨h.1, h.2.1⟩

end Festerize
